import Mathlib

/-!
Shallow embedding of `geoglows/reports.py`, centred on the exceedance
probability table builder `_add_return_period_table` and the result
collection of the parallel report functions.

Conventions of the embedding:
* pandas timestamps are pairs of a calendar day (an integer ordinal) and a
  time-of-day; `Index.normalize()` drops the time-of-day and performs no
  timezone adjustment;
* numeric flow values are rationals (the Python computation uses only
  order comparisons, maxima, one exact division `k / n` and a scaling by
  100, so the rational model captures the arithmetic exactly);
* a pandas DataFrame is a list of rows, each row an index entry paired
  with the list of per-column values;
* `f-string` rendering with `%.0f` displays the nearest whole number,
  modelled by `round`.
-/

namespace Geoglows

/-- A normalized-able timestamp: calendar day ordinal plus time of day.
`pd.Index.normalize()` keeps `day` and zeroes `tod`. -/
structure Ts where
  day : ℤ
  tod : ℕ
deriving DecidableEq

/-- `ensemble_df.index.normalize()` applied to one timestamp: keep the
calendar date, drop the time-of-day, no timezone adjustment. -/
def normalizeTs (t : Ts) : ℤ := t.day

/-- The ensemble forecast DataFrame after `pd.to_datetime` conversion:
`m` ensemble-member columns, rows of (timestamp, per-member values). -/
structure EnsembleDF where
  m : ℕ
  rows : List (Ts × List ℚ)
deriving DecidableEq

/-- Raw index entry before `pd.to_datetime(ensemble_df.index)`: either an
already-parsed timestamp or a string-encoded one that parses to the given
day and time-of-day. -/
inductive RawIdx where
  | ts (t : Ts)
  | str (day : ℤ) (tod : ℕ)
deriving DecidableEq

/-- `pd.to_datetime` on one raw index entry. -/
def toDatetime : RawIdx → Ts
  | .ts t => t
  | .str d td => ⟨d, td⟩

/-- The ensemble DataFrame as the caller passes it in, index not yet
converted to datetime. -/
structure RawDF where
  m : ℕ
  rows : List (RawIdx × List ℚ)
deriving DecidableEq

/-- The forecast DataFrame argument of `_add_return_period_table`
(`flow_median` series). Its only mention in the function body sits inside
a triple-quoted string literal (dead code), so the builder never reads it. -/
abbrev ForecastDF := List (Ts × ℚ)

/-- Distinct values of a list in order of first appearance, as
`pd.Index.unique()` returns them. `List.dedup` keeps the last occurrence
of each value, so deduplicating the reversed list and reversing back
keeps exactly the first occurrences, in their original order. -/
def uniqueOrd (l : List ℤ) : List ℤ := l.reverse.dedup.reverse

/-- The normalized calendar days of the ensemble index, one per row. -/
def daysOf (ens : EnsembleDF) : List ℤ := ens.rows.map (fun r => normalizeTs r.1)

/-- `unique_dates = ensemble_df.index.normalize().unique()[:15]`. -/
def uniqueDates (ens : EnsembleDF) : List ℤ := (uniqueOrd (daysOf ens)).take 15

/-- `day_data = ensemble_df[ensemble_df.index.normalize() == unique_date]`. -/
def dayData (ens : EnsembleDF) (d : ℤ) : List (Ts × List ℚ) :=
  ens.rows.filter (fun r => decide (normalizeTs r.1 = d))

/-- Maximum of a nonempty list of rationals; the `[]` case is never
reached by the builder (`day_data.max` is only taken when
`len(day_data) > 0`). -/
def listMax : List ℚ → ℚ
  | [] => 0
  | [x] => x
  | x :: y :: tl => max x (listMax (y :: tl))

/-- One entry of `day_data.max(axis=0)`: the maximum of member column `j`
across the rows of the day. -/
def colMax (rs : List (Ts × List ℚ)) (j : ℕ) : ℚ :=
  listMax (rs.map (fun r => r.2.getD j 0))

/-- The row appended to `daily_max_data` for one date: the per-member
daily maxima `day_data.max(axis=0)`. -/
def dailyMaxRow (ens : EnsembleDF) (d : ℤ) : List ℚ :=
  (List.range ens.m).map (colMax (dayData ens d))

/-- `forecast_dates`: the unique dates kept by the loop, i.e. those with
`len(day_data) > 0`. -/
def forecastDates (ens : EnsembleDF) : List ℤ :=
  (uniqueDates ens).filter (fun d => decide (0 < (dayData ens d).length))

/-- `daily_max_df = pd.DataFrame(daily_max_data, index=forecast_dates)`. -/
def dailyMaxTable (ens : EnsembleDF) : List (ℤ × List ℚ) :=
  (forecastDates ens).map (fun d => (d, dailyMaxRow ens d))

/-- `daily_max_df.loc[date]`: the row of the daily-maximum table labelled
by the given date (first match; the labels are unique by construction). -/
def lookupRow (tbl : List (ℤ × List ℚ)) (d : ℤ) : List ℚ :=
  ((tbl.find? (fun e => decide (e.1 = d))).map Prod.snd).getD []

/-- `probability = (num_exceeding / num_members) * 100 if num_members > 0
else 0`, with `num_exceeding = (daily_max_values > threshold).sum()` and
`num_members = len(daily_max_values)`. -/
def probability (vals : List ℚ) (t : ℚ) : ℚ :=
  let k := (vals.filter (fun v => decide (t < v))).length
  let n := vals.length
  if 0 < n then ((k : ℚ) / (n : ℚ)) * 100 else 0

/-- One rendered table cell: the text `f"{probability:.0f}%"` shows the
nearest whole percent (at exact representable halves the float formatter
rounds to even; `round` is the nearest-integer model), and the run is
emphasised (bold, red) exactly when `probability > 50`. -/
structure Cell where
  disp : ℤ
  emph : Bool
deriving DecidableEq

/-- The cell the builder writes for threshold `t` on date `d`. -/
def cellOf (ens : EnsembleDF) (t : ℚ) (d : ℤ) : Cell :=
  let p := probability (lookupRow (dailyMaxTable ens) d) t
  { disp := round p, emph := decide (50 < p) }

/-- The data content of the rendered return-period table: the date header
cells and, per threshold row, the period label with its probability cells. -/
structure RPTable where
  headerDates : List ℤ
  rows : List (String × List Cell)
deriving DecidableEq

/-- The grid `_add_return_period_table` fills in after the index
conversion: one row per entry of `rp_df` (in input order), one probability
cell per retained date (in retained order). The threshold is
`row.iloc[0]`, the first column of the `rp_df` row. -/
def buildTable (rp : List (String × ℚ)) (ens : EnsembleDF) : RPTable :=
  { headerDates := forecastDates ens
    rows := rp.map (fun p => (p.1, (forecastDates ens).map (fun d => cellOf ens p.2 d))) }

/-- `_add_return_period_table(doc, rp_df, ensemble_df, forecast_df)` as a
state transformer: it first executes
`ensemble_df.index = pd.to_datetime(ensemble_df.index)` — an in-place
update of the caller's DataFrame — and then fills the table. The result
pairs the table content added to `doc` with the post-call state of the
caller's `ensemble_df`. `rp_df` and `forecast_df` are never written
(`forecast_df` is never even read). -/
def addReturnPeriodTable (rp : List (String × ℚ)) (ensRaw : RawDF) (fc : ForecastDF) :
    RPTable × RawDF :=
  let ens : EnsembleDF := ⟨ensRaw.m, ensRaw.rows.map (fun r => (toDatetime r.1, r.2))⟩
  (buildTable rp ens, ⟨ensRaw.m, ens.rows.map (fun r => (RawIdx.ts r.1, r.2))⟩)

/-- The count, per retained date and threshold, of ensemble members whose
daily maximum strictly exceeds the threshold (`num_exceeding` expressed
directly over the member columns). -/
def exceedCount (ens : EnsembleDF) (d : ℤ) (t : ℚ) : ℕ :=
  ((List.range ens.m).filter (fun j => decide (t < colMax (dayData ens d) j))).length

/-- The retained dates as the spec's words describe them: the distinct
calendar dates of the ensemble in chronological order, truncated to the
first 15. Stated for comparison with `forecastDates`, which follows the
code. -/
def specChronologicalDates (ens : EnsembleDF) : List ℤ :=
  (List.insertionSort (· ≤ ·) (uniqueOrd (daysOf ens))).take 15

/-- Whether a raw index entry is already in datetime form, i.e. a fixed
point of `pd.to_datetime`. -/
def isDatetimeIdx : RawIdx → Bool
  | .ts _ => true
  | .str _ _ => false

/-- Result collection of `return_period_comparison` (lines 376–380): each
`future.result()` is wrapped in `try/except`; a failing task is reported
and skipped, successes are appended in submission order. -/
def collectResults {E A : Type} : List (Except E A) → List A
  | [] => []
  | .ok a :: rest => a :: collectResults rest
  | .error _ :: rest => collectResults rest

/-- Result collection of `forecast_report` (line 332):
`[f.result() for f in futures]` — the first task exception propagates out
of the comprehension and aborts the assembly of the document. -/
def collectAll {E A : Type} : List (Except E A) → Except E (List A)
  | [] => .ok []
  | .ok a :: rest => (collectAll rest).map (fun l => a :: l)
  | .error e :: rest => .error e

/-- Example ensemble: the spec's worked scenario — four members, two
timestamps on one calendar day, daily maxima `[50, 150, 600, 90]`. -/
def ensScenario : EnsembleDF :=
  ⟨4, [(⟨1, 0⟩, [50, 150, 600, 40]), (⟨1, 6⟩, [30, 120, 500, 90])]⟩

/-- Example ensemble with 16 distinct calendar days whose first row is the
chronologically last day. -/
def ensUnsorted : EnsembleDF :=
  ⟨0, ((16 : ℤ) :: (List.range 15).map (fun i => (i : ℤ) + 1)).map (fun d => (⟨d, 0⟩, []))⟩

/-- Example ensemble whose two calendar days appear in reverse
chronological order. -/
def ensTwoDays : EnsembleDF := ⟨0, [(⟨2, 0⟩, []), (⟨1, 0⟩, [])]⟩

/-- Example ensemble with chronologically ordered timestamps. -/
def ensSortedSmall : EnsembleDF := ⟨0, [(⟨1, 0⟩, []), (⟨2, 0⟩, [])]⟩

/-- Example ensemble with a retained date but zero member columns. -/
def ensNoMembers : EnsembleDF := ⟨0, [(⟨1, 0⟩, [])]⟩

/-- Example raw ensemble whose index entry still needs datetime parsing. -/
def rawNeedsParse : RawDF := ⟨0, [(RawIdx.str 1 0, [])]⟩

/-- Example raw ensemble whose index is already in datetime form. -/
def rawParsed : RawDF := ⟨0, [(RawIdx.ts ⟨1, 0⟩, [])]⟩

/-! ### Helper lemmas -/

theorem uniqueOrd_sublist (l : List ℤ) : (uniqueOrd l).Sublist l := by
  have h := (List.dedup_sublist l.reverse).reverse
  simpa [uniqueOrd] using h

theorem mem_uniqueOrd {a : ℤ} {l : List ℤ} : a ∈ uniqueOrd l ↔ a ∈ l := by
  simp [uniqueOrd, List.mem_dedup]

theorem nodup_uniqueOrd (l : List ℤ) : (uniqueOrd l).Nodup := by
  simpa [uniqueOrd] using List.nodup_dedup l.reverse

theorem toFinset_uniqueOrd (l : List ℤ) : (uniqueOrd l).toFinset = l.toFinset := by
  ext a
  simp [List.mem_toFinset, mem_uniqueOrd]

theorem length_uniqueOrd (l : List ℤ) : (uniqueOrd l).length = l.toFinset.card := by
  rw [← toFinset_uniqueOrd, List.toFinset_card_of_nodup (nodup_uniqueOrd l)]

theorem dayData_ne_nil_of_mem_uniqueDates {ens : EnsembleDF} {d : ℤ}
    (hd : d ∈ uniqueDates ens) : dayData ens d ≠ [] := by
  have hdays : d ∈ daysOf ens := mem_uniqueOrd.1 ((List.take_sublist _ _).subset hd)
  obtain ⟨r, hr, hrd⟩ := List.mem_map.1 hdays
  have hmem : r ∈ dayData ens d := List.mem_filter.2 ⟨hr, by simp [hrd]⟩
  exact List.ne_nil_of_mem hmem

theorem forecastDates_eq (ens : EnsembleDF) : forecastDates ens = uniqueDates ens := by
  apply List.filter_eq_self.2
  intro d hd
  simpa using List.length_pos.2 (dayData_ne_nil_of_mem_uniqueDates hd)

theorem dayData_ne_nil {ens : EnsembleDF} {d : ℤ} (h : d ∈ forecastDates ens) :
    dayData ens d ≠ [] := by
  rw [forecastDates_eq] at h
  exact dayData_ne_nil_of_mem_uniqueDates h

theorem find?_map_pair {f : ℤ → List ℚ} {l : List ℤ} {d : ℤ} (h : d ∈ l) :
    (l.map (fun x => (x, f x))).find? (fun e => decide (e.1 = d)) = some (d, f d) := by
  induction l with
  | nil => cases h
  | cons a tl ih =>
    by_cases had : a = d
    · subst had
      simp [List.find?_cons]
    · rcases List.mem_cons.1 h with h1 | h2
      · exact absurd h1.symm had
      · simpa [List.find?_cons, had] using ih h2

theorem lookupRow_dailyMaxTable {ens : EnsembleDF} {d : ℤ} (h : d ∈ forecastDates ens) :
    lookupRow (dailyMaxTable ens) d = dailyMaxRow ens d := by
  unfold lookupRow dailyMaxTable
  rw [find?_map_pair h]
  rfl

theorem le_listMax {l : List ℚ} {x : ℚ} (h : x ∈ l) : x ≤ listMax l := by
  induction l with
  | nil => cases h
  | cons a tl ih =>
    cases tl with
    | nil =>
      rw [List.mem_singleton.1 h]
      exact le_refl _
    | cons b tl2 =>
      rcases List.mem_cons.1 h with h1 | h2
      · rw [h1]
        exact le_max_left _ _
      · exact le_trans (ih h2) (le_max_right _ _)

theorem listMax_mem {l : List ℚ} (h : l ≠ []) : listMax l ∈ l := by
  induction l with
  | nil => exact absurd rfl h
  | cons a tl ih =>
    cases tl with
    | nil => exact List.mem_singleton.2 rfl
    | cons b tl2 =>
      rcases le_total a (listMax (b :: tl2)) with hle | hle
      · have hmax : listMax (a :: b :: tl2) = listMax (b :: tl2) := max_eq_right hle
        rw [hmax]
        exact List.mem_cons_of_mem a (ih (by simp))
      · have hmax : listMax (a :: b :: tl2) = a := max_eq_left hle
        rw [hmax]
        exact List.mem_cons_self a _

theorem dailyMaxRow_getD {ens : EnsembleDF} {d : ℤ} {j : ℕ} (hj : j < ens.m) :
    (dailyMaxRow ens d).getD j 0 = colMax (dayData ens d) j := by
  unfold dailyMaxRow
  rw [List.getD_eq_getElem?_getD, List.getElem?_map, List.getElem?_range hj]
  rfl

theorem probability_mem_Icc (vals : List ℚ) (t : ℚ) :
    0 ≤ probability vals t ∧ probability vals t ≤ 100 := by
  unfold probability
  by_cases h : 0 < vals.length
  · have hn : (0 : ℚ) < (vals.length : ℚ) := by exact_mod_cast h
    have hk : ((vals.filter (fun v => decide (t < v))).length : ℚ) ≤ (vals.length : ℚ) := by
      exact_mod_cast List.length_filter_le _ vals
    simp only [h, if_true]
    constructor
    · apply mul_nonneg (div_nonneg (Nat.cast_nonneg _) (Nat.cast_nonneg _))
      norm_num
    · calc ((vals.filter (fun v => decide (t < v))).length : ℚ) / (vals.length : ℚ) * 100
          ≤ 1 * 100 := by
            apply mul_le_mul_of_nonneg_right ((div_le_one hn).2 hk)
            norm_num
        _ = 100 := one_mul _
  · simp [h]

theorem lookupRow_length (ens : EnsembleDF) (d : ℤ) :
    (lookupRow (dailyMaxTable ens) d).length = 0 ∨
      (lookupRow (dailyMaxTable ens) d).length = ens.m := by
  unfold lookupRow
  cases hf : (dailyMaxTable ens).find? (fun e => decide (e.1 = d)) with
  | none => exact Or.inl rfl
  | some e =>
    right
    have he : e ∈ dailyMaxTable ens := List.mem_of_find?_eq_some hf
    obtain ⟨d', _, rfl⟩ := List.mem_map.1 he
    simp [dailyMaxRow]

theorem sorted_uniqueOrd {l : List ℤ} (h : l.Sorted (· ≤ ·)) :
    (uniqueOrd l).Sorted (· ≤ ·) :=
  List.Pairwise.sublist (uniqueOrd_sublist l) h

theorem forecastDates_sublist_days (ens : EnsembleDF) :
    (forecastDates ens).Sublist (daysOf ens) :=
  ((List.filter_sublist _).trans (List.take_sublist _ _)).trans (uniqueOrd_sublist _)

theorem sorted_forecastDates {ens : EnsembleDF} (h : (daysOf ens).Sorted (· ≤ ·)) :
    (forecastDates ens).Sorted (· ≤ ·) :=
  List.Pairwise.sublist (forecastDates_sublist_days ens) h

theorem ts_roundtrip {i : RawIdx} (h : isDatetimeIdx i = true) :
    RawIdx.ts (toDatetime i) = i := by
  cases i with
  | ts t => rfl
  | str d td => simp [isDatetimeIdx] at h

theorem map_parsedRows_eq {rows : List (RawIdx × List ℚ)}
    (h : ∀ r ∈ rows, isDatetimeIdx r.1 = true) :
    rows.map (fun r => (RawIdx.ts (toDatetime r.1), r.2)) = rows := by
  induction rows with
  | nil => rfl
  | cons r tl ih =>
    have h1 := h r (List.mem_cons_self r tl)
    have h2 : ∀ x ∈ tl, isDatetimeIdx x.1 = true :=
      fun x hx => h x (List.mem_cons_of_mem _ hx)
    simp only [List.map_cons, ih h2, ts_roundtrip h1]

/-! ### Claim theorems -/

/-- Claim C1: for every retained date, the probability the builder computes
equals `k / n * 100`, where `n` is the number of ensemble member columns and
`k` the number of members whose daily maximum strictly exceeds the
threshold; it is `0` when `n = 0`; and the displayed whole percent lies
within half a percent of the exact value, i.e. it is a nearest whole
percent. -/
theorem exceedance_probability_eq (ens : EnsembleDF) (t : ℚ) (d : ℤ)
    (hd : d ∈ forecastDates ens) :
    probability (lookupRow (dailyMaxTable ens) d) t =
      (if ens.m = 0 then 0 else (exceedCount ens d t : ℚ) / (ens.m : ℚ) * 100) ∧
    |((cellOf ens t d).disp : ℚ) - probability (lookupRow (dailyMaxTable ens) d) t| ≤
      1 / 2 := by
  constructor
  · rw [lookupRow_dailyMaxTable hd]
    unfold probability dailyMaxRow exceedCount
    rw [List.filter_map, List.length_map, List.length_map, List.length_range]
    rcases Nat.eq_zero_or_pos ens.m with h0 | hpos
    · simp [h0]
    · have hne : ens.m ≠ 0 := Nat.pos_iff_ne_zero.1 hpos
      simp only [hpos, if_true, hne, if_false]
      rfl
  · have h := abs_sub_round (probability (lookupRow (dailyMaxTable ens) d) t)
    rw [abs_sub_comm] at h
    simpa [cellOf] using h

/-- Witness for C1 at the spec's worked scenario (threshold 100, the one
retained date). -/
theorem exceedance_probability_eq_witness :
    probability (lookupRow (dailyMaxTable ensScenario) 1) 100 =
      (if ensScenario.m = 0 then 0
        else (exceedCount ensScenario 1 100 : ℚ) / (ensScenario.m : ℚ) * 100) ∧
    |((cellOf ensScenario 100 1).disp : ℚ) -
        probability (lookupRow (dailyMaxTable ensScenario) 1) 100| ≤ 1 / 2 :=
  exceedance_probability_eq ensScenario 100 1 (by decide)

/-- Claim C2: every probability the builder computes lies in `[0, 100]`
(and so does its rounded display); a date with zero ensemble members
yields `0`, never a division fault. -/
theorem probability_cell_bounds (ens : EnsembleDF) (t : ℚ) (d : ℤ) :
    0 ≤ probability (lookupRow (dailyMaxTable ens) d) t ∧
    probability (lookupRow (dailyMaxTable ens) d) t ≤ 100 ∧
    (ens.m = 0 → probability (lookupRow (dailyMaxTable ens) d) t = 0) ∧
    0 ≤ (cellOf ens t d).disp ∧ (cellOf ens t d).disp ≤ 100 := by
  obtain ⟨h0, h100⟩ := probability_mem_Icc (lookupRow (dailyMaxTable ens) d) t
  have hdisp : (cellOf ens t d).disp =
      round (probability (lookupRow (dailyMaxTable ens) d) t) := rfl
  have habs := abs_le.1 (abs_sub_round (probability (lookupRow (dailyMaxTable ens) d) t))
  refine ⟨h0, h100, ?_, ?_, ?_⟩
  · intro hm
    have hlen : (lookupRow (dailyMaxTable ens) d).length = 0 := by
      rcases lookupRow_length ens d with hl | hl
      · exact hl
      · rw [hl, hm]
    unfold probability
    simp [hlen]
  · rw [hdisp]
    have h1 : ((-1 : ℤ) : ℚ) <
        ((round (probability (lookupRow (dailyMaxTable ens) d) t) : ℤ) : ℚ) := by
      push_cast
      linarith [habs.2]
    have h2 : (-1 : ℤ) < round (probability (lookupRow (dailyMaxTable ens) d) t) := by
      exact_mod_cast h1
    omega
  · rw [hdisp]
    have h1 : ((round (probability (lookupRow (dailyMaxTable ens) d) t) : ℤ) : ℚ) <
        ((101 : ℤ) : ℚ) := by
      push_cast
      linarith [habs.1]
    have h2 : round (probability (lookupRow (dailyMaxTable ens) d) t) < (101 : ℤ) := by
      exact_mod_cast h1
    omega

/-- Witness for C2: an ensemble with a retained date but zero member
columns yields probability `0`. -/
theorem probability_cell_bounds_witness :
    probability (lookupRow (dailyMaxTable ensNoMembers) 1) 0 = 0 :=
  (probability_cell_bounds ensNoMembers 0 1).2.2.1 rfl

/-- Counterexample to C3 as stated: with 16 distinct days whose first row
is the chronologically last day, the code retains the first 15 days in
order of appearance, which is not the first 15 in chronological order —
day 15 is chronologically among the first 15 but is not retained. -/
theorem retained_dates_not_chronological :
    (15 : ℤ) ∈ specChronologicalDates ensUnsorted ∧
    (15 : ℤ) ∉ forecastDates ensUnsorted := by decide

/-- Claim C3 (amended): the retained dates are the first 15 distinct
calendar dates in order of first appearance; when the timestamps are
chronologically sorted this coincides with the first 15 distinct dates in
chronological order; the column count never exceeds 15 nor the number of
distinct calendar dates. -/
theorem retained_dates_spec (ens : EnsembleDF) :
    ((daysOf ens).Sorted (· ≤ ·) → forecastDates ens = specChronologicalDates ens) ∧
    (forecastDates ens).length ≤ 15 ∧
    (forecastDates ens).length ≤ (daysOf ens).toFinset.card := by
  refine ⟨?_, ?_, ?_⟩
  · intro hs
    rw [forecastDates_eq]
    unfold uniqueDates specChronologicalDates
    rw [List.Sorted.insertionSort_eq (sorted_uniqueOrd hs)]
  · calc (forecastDates ens).length ≤ (uniqueDates ens).length :=
          List.Sublist.length_le (List.filter_sublist _)
      _ ≤ 15 := by
          unfold uniqueDates
          rw [List.length_take]
          exact min_le_left _ _
  · calc (forecastDates ens).length ≤ (uniqueDates ens).length :=
          List.Sublist.length_le (List.filter_sublist _)
      _ ≤ (uniqueOrd (daysOf ens)).length :=
          List.Sublist.length_le (List.take_sublist _ _)
      _ = (daysOf ens).toFinset.card := length_uniqueOrd _

/-- Witness for C3 (amended) at a chronologically sorted two-day
ensemble. -/
theorem retained_dates_spec_witness :
    forecastDates ensSortedSmall = specChronologicalDates ensSortedSmall ∧
    (forecastDates ensSortedSmall).length ≤ 15 :=
  ⟨(retained_dates_spec ensSortedSmall).1 (by decide),
   (retained_dates_spec ensSortedSmall).2.1⟩

/-- Claim C4: for every retained date and member column, the daily maximum
the probability computation reads is the maximum of that member's values
over exactly the rows whose timestamp normalizes to that date: it bounds
them all and is attained by one of them. -/
theorem daily_max_is_day_max (ens : EnsembleDF) (d : ℤ) (j : ℕ)
    (hd : d ∈ forecastDates ens) (hj : j < ens.m) :
    (∀ r ∈ ens.rows, normalizeTs r.1 = d →
        r.2.getD j 0 ≤ (lookupRow (dailyMaxTable ens) d).getD j 0) ∧
    (∃ r ∈ ens.rows, normalizeTs r.1 = d ∧
        r.2.getD j 0 = (lookupRow (dailyMaxTable ens) d).getD j 0) := by
  rw [lookupRow_dailyMaxTable hd, dailyMaxRow_getD hj]
  unfold colMax
  constructor
  · intro r hr hrd
    apply le_listMax
    exact List.mem_map_of_mem _ (List.mem_filter.2 ⟨hr, by simp [hrd]⟩)
  · have hne : (dayData ens d).map (fun r => r.2.getD j 0) ≠ [] := by
      intro hcon
      exact dayData_ne_nil hd (List.map_eq_nil_iff.1 hcon)
    obtain ⟨r, hrmem, hreq⟩ := List.mem_map.1 (listMax_mem hne)
    have hsplit := List.mem_filter.1 hrmem
    exact ⟨r, hsplit.1, by simpa using hsplit.2, hreq⟩

/-- Witness for C4 at the spec's worked scenario, member column 0 on the
one retained date. -/
theorem daily_max_is_day_max_witness :
    (∀ r ∈ ensScenario.rows, normalizeTs r.1 = 1 →
        r.2.getD 0 0 ≤ (lookupRow (dailyMaxTable ensScenario) 1).getD 0 0) ∧
    (∃ r ∈ ensScenario.rows, normalizeTs r.1 = 1 ∧
        r.2.getD 0 0 = (lookupRow (dailyMaxTable ensScenario) 1).getD 0 0) :=
  daily_max_is_day_max ensScenario 1 0 (by decide) (by decide)

/-- Counterexample to C5 as stated: the builder executes
`ensemble_df.index = pd.to_datetime(ensemble_df.index)`; on an ensemble
whose index entry is a string-encoded timestamp the caller's table is
changed by the call. -/
theorem builder_rewrites_index :
    (addReturnPeriodTable [] rawNeedsParse []).2 ≠ rawNeedsParse := by decide

/-- Claim C5 (amended): the builder overwrites the ensemble's index with
its datetime conversion, so the ensemble input is left unchanged exactly
on indexes already in datetime form (the conversion is then the identity);
the thresholds and forecast tables are never written. -/
theorem builder_preserves_datetime_input (rp : List (String × ℚ)) (ensRaw : RawDF)
    (fc : ForecastDF) (h : ∀ r ∈ ensRaw.rows, isDatetimeIdx r.1 = true) :
    (addReturnPeriodTable rp ensRaw fc).2 = ensRaw := by
  obtain ⟨m, rows⟩ := ensRaw
  simp only [addReturnPeriodTable, List.map_map]
  congr 1
  exact map_parsedRows_eq h

/-- Witness for C5 (amended): an already-datetime index is unchanged. -/
theorem builder_preserves_datetime_input_witness :
    (addReturnPeriodTable [] rawParsed []).2 = rawParsed :=
  builder_preserves_datetime_input [] rawParsed [] (by decide)

/-- Claim C6: the builder is deterministic — identical inputs give
identical outputs — and idempotent: re-running it on the state it left
behind reproduces the same table and the same state, emphasis flags
included. -/
theorem builder_deterministic_idempotent (rp : List (String × ℚ)) (ensRaw : RawDF)
    (fc : ForecastDF) :
    addReturnPeriodTable rp ensRaw fc = addReturnPeriodTable rp ensRaw fc ∧
    addReturnPeriodTable rp (addReturnPeriodTable rp ensRaw fc).2 fc =
      addReturnPeriodTable rp ensRaw fc := by
  refine ⟨rfl, ?_⟩
  obtain ⟨m, rows⟩ := ensRaw
  simp only [addReturnPeriodTable, List.map_map]
  rfl

/-- Counterexample to C7 as stated: on an ensemble whose two days appear
in reverse chronological order the data columns are `[day 2, day 1]` — one
column per retained date, but not in chronological order. -/
theorem table_columns_not_chronological :
    (buildTable [("2yr", 100)] ensTwoDays).headerDates = [2, 1] ∧
    ¬ ((buildTable [("2yr", 100)] ensTwoDays).headerDates.Sorted (· ≤ ·)) := by
  decide

/-- Claim C7 (amended): the table has one data row per threshold (in input
order) and one data column per retained date, the columns following the
dates' order of first appearance — chronological whenever the ensemble's
timestamps are chronologically ordered; empty thresholds give no data
rows and an empty ensemble gives no data columns. -/
theorem table_shape (rp : List (String × ℚ)) (ens : EnsembleDF) :
    (buildTable rp ens).rows.length = rp.length ∧
    (∀ row ∈ (buildTable rp ens).rows,
        row.2.length = (buildTable rp ens).headerDates.length) ∧
    (rp = [] → (buildTable rp ens).rows = []) ∧
    (ens.rows = [] → (buildTable rp ens).headerDates = []) ∧
    ((daysOf ens).Sorted (· ≤ ·) →
        (buildTable rp ens).headerDates.Sorted (· ≤ ·)) := by
  refine ⟨?_, ?_, ?_, ?_, ?_⟩
  · simp [buildTable]
  · intro row hrow
    obtain ⟨p, _, hrow⟩ := List.mem_map.1 hrow
    rw [← hrow]
    simp [buildTable]
  · intro h
    simp [buildTable, h]
  · intro h
    have hdays : daysOf ens = [] := by simp [daysOf, h]
    show forecastDates ens = []
    rw [forecastDates_eq]
    simp [uniqueDates, uniqueOrd, hdays]
  · exact fun hs => sorted_forecastDates hs

/-- Witness for C7 (amended): empty thresholds and empty ensemble give an
empty, trivially sorted grid. -/
theorem table_shape_witness :
    (buildTable [] (⟨0, []⟩ : EnsembleDF)).rows = [] ∧
    (buildTable [] (⟨0, []⟩ : EnsembleDF)).headerDates = [] ∧
    ((buildTable [] (⟨0, []⟩ : EnsembleDF)).headerDates.Sorted (· ≤ ·)) :=
  ⟨(table_shape [] ⟨0, []⟩).2.2.1 rfl, (table_shape [] ⟨0, []⟩).2.2.2.1 rfl,
   (table_shape [] ⟨0, []⟩).2.2.2.2 (by decide)⟩

/-- Claim C8: a cell of the rendered grid carries visual emphasis (bold,
red) exactly when its computed probability is strictly greater than 50. -/
theorem emphasis_iff_probability_gt_fifty (rp : List (String × ℚ)) (ens : EnsembleDF)
    (i j : ℕ) (hi : i < rp.length) (hj : j < (forecastDates ens).length) :
    ((((buildTable rp ens).rows.getD i ("", [])).2.getD j ⟨0, false⟩).emph = true ↔
      50 < probability (lookupRow (dailyMaxTable ens) ((forecastDates ens).getD j 0))
        (rp.getD i ("", 0)).2) := by
  have h1 : (buildTable rp ens).rows.getD i ("", []) =
      ((rp.getD i ("", 0)).1,
        (forecastDates ens).map (fun d => cellOf ens (rp.getD i ("", 0)).2 d)) := by
    simp only [buildTable]
    rw [List.getD_eq_getElem?_getD, List.getElem?_map, List.getElem?_eq_getElem hi,
      List.getD_eq_getElem?_getD, List.getElem?_eq_getElem hi]
    rfl
  rw [h1]
  have h2 : ((forecastDates ens).map (fun d => cellOf ens (rp.getD i ("", 0)).2 d)).getD j
      ⟨0, false⟩ = cellOf ens (rp.getD i ("", 0)).2 ((forecastDates ens).getD j 0) := by
    simp [List.getD_eq_getElem?_getD, List.getElem?_map, List.getElem?_eq_getElem hj]
  show (((forecastDates ens).map (fun d => cellOf ens (rp.getD i ("", 0)).2 d)).getD j
      ⟨0, false⟩).emph = true ↔ _
  rw [h2]
  simp [cellOf]

/-- Witness for C8 at the spec's worked scenario: first threshold row,
first date column. -/
theorem emphasis_iff_probability_gt_fifty_witness :
    ((((buildTable [("2yr", (100 : ℚ))] ensScenario).rows.getD 0 ("", [])).2.getD 0
        ⟨0, false⟩).emph = true ↔
      50 < probability
        (lookupRow (dailyMaxTable ensScenario) ((forecastDates ensScenario).getD 0 0))
        (([("2yr", (100 : ℚ))].getD 0 ("", 0)).2)) :=
  emphasis_iff_probability_gt_fifty [("2yr", (100 : ℚ))] ensScenario 0 0 (by decide)
    (by decide)

/-- Counterexample to C9 as stated: `forecast_report` collects task results
with a bare list comprehension over `future.result()`, so the first failing
task's exception propagates and aborts assembly — unlike
`return_period_comparison`, which catches per task and keeps the sibling
result. -/
theorem forecast_collection_aborts_on_error :
    collectAll ([Except.error 0, Except.ok 1] : List (Except ℕ ℕ)) = Except.error 0 ∧
    collectResults ([Except.error 0, Except.ok 1] : List (Except ℕ ℕ)) = [1] :=
  ⟨rfl, rfl⟩

/-- Claim C9 (amended): in `return_period_comparison` a failed task is
dropped in place — the siblings' assembly is exactly what it would be
without the failed task — while in `forecast_report` any failed task makes
the whole collection an error. -/
theorem collection_error_isolation (E A : Type) (pre post : List (Except E A)) (e : E) :
    collectResults (pre ++ Except.error e :: post) = collectResults (pre ++ post) ∧
    ∃ e', collectAll (pre ++ Except.error e :: post) = Except.error e' := by
  induction pre with
  | nil => exact ⟨rfl, e, rfl⟩
  | cons r tl ih =>
    obtain ⟨ih1, e', ih2⟩ := ih
    cases r with
    | ok a =>
      refine ⟨?_, e', ?_⟩
      · show a :: collectResults (tl ++ Except.error e :: post) =
            a :: collectResults (tl ++ post)
        rw [ih1]
      · show (collectAll (tl ++ Except.error e :: post)).map (fun l => a :: l) =
            Except.error e'
        rw [ih2]
        rfl
    | error e0 =>
      refine ⟨?_, e0, ?_⟩
      · show collectResults (tl ++ Except.error e :: post) = collectResults (tl ++ post)
        exact ih1
      · rfl

/-- Claim C10: the table content the builder produces does not depend on
the `forecast_df` argument (its only occurrence in the function body is
inside a dead string literal). -/
theorem table_independent_of_forecast_df (rp : List (String × ℚ)) (ensRaw : RawDF)
    (fc1 fc2 : ForecastDF) :
    (addReturnPeriodTable rp ensRaw fc1).1 = (addReturnPeriodTable rp ensRaw fc2).1 :=
  rfl

end Geoglows
